import Mathlib

/-!
# Verification of the interactive-component dispatch subsystem

Shallow embedding of the component dispatch and lifecycle subsystem of the
discordjs-core-bot repository:

* `ComponentRegistry` (persistent components + factories) and its `get`/`has`
  resolution (src ComponentRegistry.ts),
* `ComponentHandler` with its dynamic map and `dispatch`
  (src ComponentHandler.ts),
* `BaseComponent.executeWithValidation` (src BaseComponent.ts),
* `ComponentManager` (cache entries, expiry, sweep, customId
  generation/parsing, namespace filter) (src ComponentManager.ts),
* `ConfirmButtonFactory` (src impl/util/ConfirmButton.ts),
* `BaseModal.validate` and the `ComponentType` enum (src BaseModal.ts,
  BaseComponent.ts).

Conventions of the embedding:

* A JS call that may `throw` is modelled as `Except Err α`.
* `async`/`await` sequencing is direct sequencing (each dispatch is a single
  task; concurrency is out of scope of the claims below).
* JS `Map` objects are insertion-ordered association lists
  `List (String × α)`: `Map.get` is the first entry with the key, `Map.set`
  overwrites in place, `Map.delete` removes the key, iteration is list order.
* Logging and outward calls are recorded in an event trace (`Event`), so that
  "logs and returns" / "attempts exactly one reply" are provable statements.
* JS `undefined` is `Option.none` where a value can be absent.
-/

namespace DiscordBot

/-- A thrown JS error (only its message is relevant to the claims). -/
structure Err where
  msg : String
deriving Repr, DecidableEq

/-- `true` exactly when an embedded JS call threw. -/
def isThrow {α : Type} : Except Err α → Bool
  | .error _ => true
  | .ok _ => false

/-- Observable events of a dispatch: logger calls, the component's
validate/execute/cleanup invocations, and the error-notice reply call
through the context's responder capability. -/
inductive Event where
  | logDebug (msg : String)
  | logInfo (msg : String)
  | logWarn (msg : String)
  | logError (msg : String)
  | validateCall
  | executeCall
  | cleanupCall
  | replyCall
deriving Repr, DecidableEq

/-! ## JS `Map` model (insertion-ordered association list) -/

/-- `Map.get(k)`: the entry with key `k` (a JS map holds each key at most
once, so taking the first occurrence is exact). -/
def mapGet {α : Type} : List (String × α) → String → Option α
  | [], _ => none
  | p :: rest, k => if p.1 == k then some p.2 else mapGet rest k

/-- `Map.has(k)`. -/
def mapHas {α : Type} : List (String × α) → String → Bool
  | [], _ => false
  | p :: rest, k => p.1 == k || mapHas rest k

/-- `Map.set(k, v)`: overwrite in place if present, else append at the
end (JS maps keep the original insertion position on overwrite). -/
def mapSet {α : Type} : List (String × α) → String → α → List (String × α)
  | [], k, v => [(k, v)]
  | p :: rest, k, v =>
      if p.1 == k then (k, v) :: rest else p :: mapSet rest k v

/-- `Map.delete(k)`. -/
def mapDelete {α : Type} : List (String × α) → String → List (String × α)
  | [], _ => []
  | p :: rest, k =>
      if p.1 == k then mapDelete rest k else p :: mapDelete rest k

/-! ## ComponentContext (ComponentHandler.ts, interface ComponentContext)

The interaction payload, api object and message are opaque to every claim;
the fields below are the ones the embedded code reads.  The behaviour of
`context.api.interactions.reply(...)` for the dispatch error notice is an
oracle `replyResult` (the call may itself throw). -/

structure ComponentContext where
  userId : String
  customId : String
  guildId : Option String := none
  channelId : Option String := none
  /-- `values?: string[]` for select menus. -/
  values : Option (List String) := none
  /-- `componentType: number` — always a JS number on this interface. -/
  componentType : Nat
  /-- `modalData?: Map<string, string>`. -/
  modalData : Option (List (String × String)) := none
  /-- Outcome of the error-notice `api.interactions.reply` call made by
  `ComponentHandler.dispatch`'s catch block, if it is made. -/
  replyResult : Except Err Unit := .ok ()

/-! ## BaseComponent (BaseComponent.ts)

An abstract class whose subclasses override `validate`/`execute`/`cleanup`;
those behaviours are oracle fields.  `type` is `Option Nat` because
`BaseModal` assigns `ComponentType.MODAL`, a member absent from the
`ComponentType` enum, i.e. the JS value `undefined` (see `componentTypeEnum`
below). -/

structure BaseComponent where
  customId : String
  /-- `getType()`; `none` models `undefined`. -/
  type : Option Nat
  once : Bool := false
  validate : ComponentContext → Except Err Bool := fun _ => .ok true
  execute : ComponentContext → Except Err Unit
  cleanup : Except Err Unit := .ok ()

/-- `BaseComponent.executeWithValidation(context)` (BaseComponent.ts
lines 200–222): `try { if !(await validate) { log debug; return };
await execute; if once { await cleanup }; log debug } catch e
{ log error; throw e }`.  Returns the outcome together with the
event trace. -/
def executeWithValidation (c : BaseComponent) (ctx : ComponentContext) :
    Except Err Unit × List Event :=
  match c.validate ctx with
  | .error e =>
      (.error e, [.validateCall, .logError "Component execution failed"])
  | .ok false =>
      (.ok (), [.validateCall, .logDebug "Component validation failed"])
  | .ok true =>
      match c.execute ctx with
      | .error e =>
          (.error e,
           [.validateCall, .executeCall, .logError "Component execution failed"])
      | .ok _ =>
          if c.once then
            match c.cleanup with
            | .error e =>
                (.error e,
                 [.validateCall, .executeCall, .cleanupCall,
                  .logError "Component execution failed"])
            | .ok _ =>
                (.ok (),
                 [.validateCall, .executeCall, .cleanupCall,
                  .logDebug "Component executed successfully"])
          else
            (.ok (),
             [.validateCall, .executeCall,
              .logDebug "Component executed successfully"])

/-! ## ComponentFactory (ComponentFactory.ts) -/

structure ComponentFactory where
  /-- `getPattern()`. -/
  pattern : String
  canHandle : String → Bool
  /-- `create(customId, context?)`; may throw. -/
  create : String → Option ComponentContext → Except Err BaseComponent

/-! ## ComponentRegistry (ComponentRegistry.ts) -/

structure ComponentRegistry where
  components : List (String × BaseComponent) := []
  factories : List (String × ComponentFactory) := []

namespace ComponentRegistry

/-- `register(component)` (lines 18–27): overwrite-on-duplicate. -/
def register (r : ComponentRegistry) (c : BaseComponent) : ComponentRegistry :=
  { r with components := mapSet r.components c.customId c }

/-- `registerFactory(factory)` (lines 34–43). -/
def registerFactory (r : ComponentRegistry) (f : ComponentFactory) :
    ComponentRegistry :=
  { r with factories := mapSet r.factories f.pattern f }

/-- `get(customId, context?)` (lines 51–71): direct match first; else the
first factory (registration order) whose `canHandle` is true is asked to
`create`; a throwing `create` is logged and converted to `null`. -/
def get (r : ComponentRegistry) (customId : String)
    (context : Option ComponentContext) : Option BaseComponent :=
  match mapGet r.components customId with
  | some c => some c
  | none =>
      match r.factories.find? (fun p => p.2.canHandle customId) with
      | some p =>
          match p.2.create customId context with
          | .ok c => some c
          | .error _ => none
      | none => none

/-- `has(customId)` (lines 76–88): direct components, then `canHandle`
probes, never calling `create`. -/
def has (r : ComponentRegistry) (customId : String) : Bool :=
  mapHas r.components customId
    || r.factories.any (fun p => p.2.canHandle customId)

end ComponentRegistry

/-! ## ComponentHandler (ComponentHandler.ts) -/

structure ComponentHandler where
  components : List (String × BaseComponent) := []

namespace ComponentHandler

/-- `register(component)` (lines 154–163). -/
def register (h : ComponentHandler) (c : BaseComponent) : ComponentHandler :=
  { h with components := mapSet h.components c.customId c }

/-- `unregister(customId)` (lines 168–172). -/
def unregister (h : ComponentHandler) (customId : String) : ComponentHandler :=
  { h with components := mapDelete h.components customId }

/-- The resolution step of `dispatch` (lines 179–185): the persistent
registry (with context, for factories), then the dynamic map. -/
def resolve (h : ComponentHandler) (registry : ComponentRegistry)
    (customId : String) (ctx : ComponentContext) : Option BaseComponent :=
  match registry.get customId (some ctx) with
  | some c => some c
  | none => mapGet h.components customId

/-- The body of `dispatch` once a component is resolved (lines 192–207):
run `executeWithValidation`; on success log debug; on a thrown error log,
attempt one ephemeral error reply, and log (only) if that reply throws. -/
def dispatchResolved (c : BaseComponent) (ctx : ComponentContext) :
    Except Err Unit × List Event :=
  let r := executeWithValidation c ctx
  match r.1 with
  | .ok _ =>
      (.ok (), r.2 ++ [.logDebug "Component executed successfully"])
  | .error _ =>
      let tr := r.2 ++ [.logError "Component execution failed", .replyCall]
      match ctx.replyResult with
      | .ok _ => (.ok (), tr)
      | .error _ => (.ok (), tr ++ [.logError "Failed to send error response"])

/-- `dispatch(customId, context)` (lines 178–208). -/
def dispatch (h : ComponentHandler) (registry : ComponentRegistry)
    (customId : String) (ctx : ComponentContext) :
    Except Err Unit × List Event :=
  match resolve h registry customId ctx with
  | none => (.ok (), [.logWarn "No component handler found for customId"])
  | some c => dispatchResolved c ctx

end ComponentHandler

/-! ## Metadata values and `hashMetadata` (ComponentManager.ts lines 240–247)

Metadata bags are `[key: string]: any`; the claims depend only on flat JSON
scalar values, modelled by `JsVal`.  `hashMetadata` is
`Buffer.from(JSON.stringify(sortedByKey)).toString('base64').slice(0, 16)`.
(The JS engine would additionally move integer-like keys to the front of the
rebuilt object; that reordering changes only which hash string is produced,
never its base64 alphabet, which is all any claim depends on.) -/

inductive JsVal where
  | str (s : String)
  | num (n : Int)
  | bool (b : Bool)
  | null
deriving Repr, DecidableEq

/-- Lowercase hex digit. -/
def hexDigit (n : Nat) : Char :=
  "0123456789abcdef".data.getD n '0'

/-- JSON escaping of one character (as `JSON.stringify` does). -/
def jsonEscapeChar (c : Char) : List Char :=
  if c = '"' then ['\\', '"']
  else if c = '\\' then ['\\', '\\']
  else if c = '\n' then ['\\', 'n']
  else if c = '\r' then ['\\', 'r']
  else if c = '\t' then ['\\', 't']
  else if c.toNat = 8 then ['\\', 'b']
  else if c.toNat = 12 then ['\\', 'f']
  else if c.toNat < 32 then
    ['\\', 'u', '0', '0', hexDigit (c.toNat / 16), hexDigit (c.toNat % 16)]
  else [c]

/-- `JSON.stringify` of a scalar value. -/
def jsonStringifyVal : JsVal → List Char
  | .str s => '"' :: (s.data.map jsonEscapeChar).flatten ++ ['"']
  | .num n => (toString n).data
  | .bool true => "true".data
  | .bool false => "false".data
  | .null => "null".data

/-- `JSON.stringify` of one `"key":value` member. -/
def jsonMember (p : String × JsVal) : List Char :=
  '"' :: (p.1.data.map jsonEscapeChar).flatten ++ ['"', ':'] ++ jsonStringifyVal p.2

/-- Comma-joined members. -/
def jsonMembers : List (String × JsVal) → List Char
  | [] => []
  | [p] => jsonMember p
  | p :: rest => jsonMember p ++ ',' :: jsonMembers rest

/-- `JSON.stringify` of a flat object. -/
def jsonStringifyObj (l : List (String × JsVal)) : List Char :=
  '{' :: jsonMembers l ++ ['}']

/-- Insertion step of `Object.keys(metadata).sort()` (lexicographic). -/
def insertByKey (p : String × JsVal) :
    List (String × JsVal) → List (String × JsVal)
  | [] => [p]
  | q :: rest =>
      if p.1 ≤ q.1 then p :: q :: rest else q :: insertByKey p rest

/-- Rebuild the object with its keys sorted. -/
def sortByKey (l : List (String × JsVal)) : List (String × JsVal) :=
  l.foldr insertByKey []

/-- UTF-8 bytes of one character (`Buffer.from(string)` uses UTF-8). -/
def utf8Bytes (c : Char) : List Nat :=
  let n := c.toNat
  if n < 128 then [n]
  else if n < 2048 then [192 + n / 64, 128 + n % 64]
  else if n < 65536 then
    [224 + n / 4096, 128 + n / 64 % 64, 128 + n % 64]
  else
    [240 + n / 262144, 128 + n / 4096 % 64, 128 + n / 64 % 64, 128 + n % 64]

/-- UTF-8 bytes of a string. -/
def strBytes (s : String) : List Nat :=
  (s.data.map utf8Bytes).flatten

/-- The base64 alphabet. -/
def b64Chars : List Char :=
  "ABCDEFGHIJKLMNOPQRSTUVWXYZabcdefghijklmnopqrstuvwxyz0123456789+/".data

def b64Char (i : Nat) : Char :=
  b64Chars.getD i 'A'

/-- Standard base64 of a byte list (with `=` padding). -/
def base64Rec : List Nat → List Char
  | b0 :: b1 :: b2 :: rest =>
      b64Char (b0 / 4) :: b64Char (b0 % 4 * 16 + b1 / 16) ::
      b64Char (b1 % 16 * 4 + b2 / 64) :: b64Char (b2 % 64) :: base64Rec rest
  | [b0, b1] =>
      [b64Char (b0 / 4), b64Char (b0 % 4 * 16 + b1 / 16),
       b64Char (b1 % 16 * 4), '=']
  | [b0] => [b64Char (b0 / 4), b64Char (b0 % 4 * 16), '=', '=']
  | [] => []

/-- `hashMetadata(metadata)` (ComponentManager.ts lines 240–247). -/
def hashMetadata (metadata : List (String × JsVal)) : String :=
  ⟨(base64Rec (strBytes ⟨jsonStringifyObj (sortByKey metadata)⟩)).take 16⟩

/-! ## customId generation and parsing (ComponentManager.ts lines 111–142) -/

/-- JS `String.prototype.split` with a one-character separator:
`"".split(c) = [""]`, separators delimit (possibly empty) fields. -/
def jsSplit (sep : Char) : List Char → List (List Char)
  | [] => [[]]
  | c :: rest =>
      let r := jsSplit sep rest
      if c = sep then [] :: r
      else
        match r with
        | h :: t => (c :: h) :: t
        | [] => [[c]]

/-- Result of `parseCustomId` (interface ParsedCustomId).  The source field
`namespace` is a Lean keyword and is rendered `nspace`. -/
structure ParsedCustomId where
  nspace : String
  componentId : String
  fullId : String
  metadataHash : Option String
deriving Repr, DecidableEq

/-- `generateCustomId(namespace, componentId, metadata?)` (lines 111–120). -/
def generateCustomId (nspace componentId : String)
    (metadata : Option (List (String × JsVal))) : String :=
  let baseId := nspace ++ ":" ++ componentId
  match metadata with
  | some md =>
      if md.length > 0 then baseId ++ ":" ++ hashMetadata md else baseId
  | none => baseId

/-- `parseCustomId(customId)` (lines 125–142): split on `':'`; throw on
fewer than 2 parts; `metadataHash` is `parts[2]` (`undefined` if absent). -/
def parseCustomId (customId : String) : Except Err ParsedCustomId :=
  let parts := (jsSplit ':' customId.data).map (fun l => (⟨l⟩ : String))
  if parts.length < 2 then
    .error ⟨"Invalid customId format: " ++ customId⟩
  else
    .ok { nspace := parts.getD 0 "", componentId := parts.getD 1 "",
          fullId := customId, metadataHash := parts.get? 2 }

/-! ## ComponentManager (ComponentManager.ts)

`Date.now()` readings are passed explicitly as `now : Int` (milliseconds). -/

structure ComponentCacheEntry where
  component : BaseComponent
  registeredAt : Int
  timeout : Int
  metadata : List (String × JsVal)
  usageCount : Nat
  lastUsed : Int

structure ComponentManager where
  componentCache : List (String × ComponentCacheEntry) := []

/-- `ComponentOptions`. -/
structure ComponentOptions where
  timeout : Option Int := none
  metadata : Option (List (String × JsVal)) := none

namespace ComponentManager

/-- `DEFAULT_TIMEOUT = 15 * 60 * 1000`. -/
def DEFAULT_TIMEOUT : Int := 15 * 60 * 1000

/-- `CLEANUP_INTERVAL = 5 * 60 * 1000` (the sweep period). -/
def CLEANUP_INTERVAL : Int := 5 * 60 * 1000

/-- `registerComponent(component, options)` (lines 31–61): register with the
handler, then cache `{component, registeredAt: now, timeout, metadata,
usageCount: 0, lastUsed: now}`; returns the customId. -/
def registerComponent (m : ComponentManager) (h : ComponentHandler)
    (c : BaseComponent) (options : ComponentOptions) (now : Int) :
    ComponentManager × ComponentHandler × String :=
  let customId := c.customId
  let timeout := options.timeout.getD DEFAULT_TIMEOUT
  let metadata := options.metadata.getD []
  let h' := h.register c
  let entry : ComponentCacheEntry :=
    { component := c, registeredAt := now, timeout := timeout,
      metadata := metadata, usageCount := 0, lastUsed := now }
  (⟨mapSet m.componentCache customId entry⟩, h', customId)

/-- `unregisterComponent(customId)` (lines 66–73): only if cached, remove
from the handler and from the cache. -/
def unregisterComponent (m : ComponentManager) (h : ComponentHandler)
    (customId : String) : ComponentManager × ComponentHandler :=
  match mapGet m.componentCache customId with
  | some _ =>
      (⟨mapDelete m.componentCache customId⟩, h.unregister customId)
  | none => (m, h)

/-- JS object spread `{...a, ...b}`: `a`'s keys in order with `b`'s
overrides, then `b`'s new keys. -/
def objMerge (a b : List (String × JsVal)) : List (String × JsVal) :=
  (a.map (fun p => (p.1, (mapGet b p.1).getD p.2)))
    ++ b.filter (fun p => !mapHas a p.1)

/-- `updateComponentMetadata(customId, metadata)` (lines 86–93): if cached,
merge the metadata, set `lastUsed` and increment `usageCount`. -/
def updateComponentMetadata (m : ComponentManager) (customId : String)
    (metadata : List (String × JsVal)) (now : Int) : ComponentManager :=
  match mapGet m.componentCache customId with
  | some e =>
      ⟨mapSet m.componentCache customId
        { e with metadata := objMerge e.metadata metadata,
                 lastUsed := now, usageCount := e.usageCount + 1 }⟩
  | none => m

/-- `isComponentExpired(customId)` (lines 98–106): vacuously true when not
cached, else `now - registeredAt > timeout`. -/
def isComponentExpired (m : ComponentManager) (customId : String)
    (now : Int) : Bool :=
  match mapGet m.componentCache customId with
  | none => true
  | some e => now - e.registeredAt > e.timeout

/-- The loop body of `getComponentsByNamespace` (lines 147–158): parse each
cached customId (a parse throw propagates) and keep the components whose
first segment matches. -/
def namespaceLoop (nspace : String) :
    List (String × ComponentCacheEntry) → Except Err (List BaseComponent)
  | [] => .ok []
  | (customId, entry) :: rest =>
      match parseCustomId customId with
      | .error e => .error e
      | .ok parsed =>
          match namespaceLoop nspace rest with
          | .error e => .error e
          | .ok comps =>
              .ok (if parsed.nspace == nspace then
                     entry.component :: comps
                   else comps)

/-- `getComponentsByNamespace(namespace)` (lines 147–158). -/
def getComponentsByNamespace (m : ComponentManager) (nspace : String) :
    Except Err (List BaseComponent) :=
  namespaceLoop nspace m.componentCache

/-- `ComponentStats`. -/
structure Stats where
  customId : String
  usageCount : Nat
  age : Int
  timeSinceLastUse : Int
  expired : Bool
  metadata : List (String × JsVal)

/-- `getComponentStats(customId)` (lines 163–179). -/
def getComponentStats (m : ComponentManager) (customId : String)
    (now : Int) : Option Stats :=
  (mapGet m.componentCache customId).map fun e =>
    { customId := customId, usageCount := e.usageCount,
      age := now - e.registeredAt, timeSinceLastUse := now - e.lastUsed,
      expired := m.isComponentExpired customId now, metadata := e.metadata }

/-- `getAllComponentStats()` (lines 184–195). -/
def getAllComponentStats (m : ComponentManager) (now : Int) : List Stats :=
  (m.componentCache.map Prod.fst).filterMap
    (fun customId => getComponentStats m customId now)

/-- The sweep loop of `cleanupExpiredComponents` (lines 200–213).  The JS
`for..of` over `Map.entries()` visits every original entry even though
`unregisterComponent` deletes the entry under the cursor, so the loop is
run over the snapshot of the entries. -/
def cleanupLoop (now : Int) :
    List (String × ComponentCacheEntry) → ComponentManager →
    ComponentHandler → Nat → ComponentManager × ComponentHandler × Nat
  | [], m, h, n => (m, h, n)
  | (customId, _) :: rest, m, h, n =>
      if m.isComponentExpired customId now then
        let p := m.unregisterComponent h customId
        cleanupLoop now rest p.1 p.2 (n + 1)
      else
        cleanupLoop now rest m h n

/-- `cleanupExpiredComponents()` (lines 200–213): unregister every expired
entry; the `Nat` is the logged count of removed entries. -/
def cleanupExpiredComponents (m : ComponentManager) (h : ComponentHandler)
    (now : Int) : ComponentManager × ComponentHandler × Nat :=
  cleanupLoop now m.componentCache m h 0

end ComponentManager

/-! ## The `ComponentType` enum (BaseComponent.ts lines 228–236)

The enum declares exactly seven member names (`SELECT_MENU` and
`STRING_SELECT` alias the same value 3).  Member access on a TS enum object
is a property lookup: an absent member — in particular
`ComponentType.MODAL`, which `BaseModal` references — evaluates to the JS
value `undefined`, i.e. `none`. -/

def componentTypeMembers : List (String × Nat) :=
  [("BUTTON", 2), ("SELECT_MENU", 3), ("STRING_SELECT", 3),
   ("USER_SELECT", 5), ("ROLE_SELECT", 6), ("MENTIONABLE_SELECT", 7),
   ("CHANNEL_SELECT", 8)]

/-- `ComponentType.<name>` as a property lookup on the enum object. -/
def componentTypeMember (name : String) : Option Nat :=
  mapGet componentTypeMembers name

/-! ## BaseModal (BaseModal.ts) -/

/-- `ModalTextInput` (BaseModal.ts lines 7–16). -/
structure ModalTextInput where
  customId : String
  label : String
  /-- `TextInputStyle`: 1 = Short, 2 = Paragraph. -/
  style : Nat
  placeholder : Option String := none
  value : Option String := none
  required : Option Bool := none
  minLength : Option Nat := none
  maxLength : Option Nat := none
deriving Repr, DecidableEq

/-- The data of a `BaseModal` subclass (title and inputs are abstract
fields the subclass provides). -/
structure BaseModal where
  customId : String
  title : String
  inputs : List ModalTextInput
deriving Repr, DecidableEq

/-- `BaseModal.validate(context)` (BaseModal.ts lines 46–63).  The first
guard is `context.componentType !== ComponentType.MODAL`; `componentType`
is a JS number while `ComponentType.MODAL` is `undefined` (no such enum
member), so the strict inequality compares `some _` with `none`. -/
def BaseModal.validate (m : BaseModal) (ctx : ComponentContext) : Bool :=
  if (some ctx.componentType : Option Nat) ≠ componentTypeMember "MODAL" then
    false
  else if m.inputs.length = 0 || m.inputs.length > 5 then false
  else if m.title.length = 0 || m.title.length > 45 then false
  else true

/-! ## ConfirmButton and its factory (impl/util/ConfirmButton.ts)

The factory pattern is the regex `^util:confirm:(.+?)(?::(success|danger))?$`
(line 100).  It is embedded as a function with JS regex semantics: the lazy
group `(.+?)` takes the shortest action (one or more non-line-terminator
characters) after which the rest of the input is exactly `":success"`,
`":danger"`, or empty. -/

/-- JS `.` (no `s` flag): any character except a line terminator. -/
def isDot (c : Char) : Bool :=
  !(c == '\n' || c == '\r' || c == '\u2028' || c == '\u2029')

/-- Strip an exact literal from the front of the input. -/
def dropLit : List Char → List Char → Option (List Char)
  | [], s => some s
  | _ :: _, [] => none
  | p :: ps, c :: cs => if c = p then dropLit ps cs else none

/-- Can the remainder of the input close the match at this point?  `[]`
closes with the optional group skipped; `":success"`/`":danger"` close with
the group captured. -/
def tailStyle : List Char → Option (Option String)
  | [] => some none
  | rest =>
      if rest = ":success".data then some (some "success")
      else if rest = ":danger".data then some (some "danger")
      else none

/-- The lazy scan: `acc` is the (nonempty) action matched so far; stop at
the first point where the remainder closes the match, else let `(.+?)`
consume one more `.`-matchable character. -/
def scanConfirm : List Char → List Char → Option (String × Option String)
  | acc, rest =>
      match tailStyle rest with
      | some sty => some (⟨acc⟩, sty)
      | none =>
          match rest with
          | [] => none
          | c :: rest' =>
              if isDot c then scanConfirm (acc ++ [c]) rest' else none

/-- `customId.match(PATTERN)` for the ConfirmButton pattern: the captured
action and the optional captured style. -/
def confirmPATTERN (customId : String) : Option (String × Option String) :=
  match dropLit "util:confirm:".data customId.data with
  | none => none
  | some [] => none
  | some (c :: rest) => if isDot c then scanConfirm [c] rest else none

/-- `inferStyleFromAction(action)` (ConfirmButton.ts lines 130–139). -/
def inferStyleFromAction (action : String) : String :=
  if List.isSuffixOf "-danger".data action.data
      || List.isSuffixOf "-cancel".data action.data then "danger"
  else if List.isSuffixOf "-success".data action.data
      || List.isSuffixOf "-confirm".data action.data then "success"
  else "success"

/-- `ButtonStyle.Success` / `ButtonStyle.Danger` (@discordjs/core). -/
def ButtonStyleSuccess : Nat := 3
def ButtonStyleDanger : Nat := 4

/-- A `ConfirmButton` instance: the constructor arguments (ConfirmButton.ts
lines 17–28).  `metadata` is the third constructor argument. -/
structure ConfirmButton where
  action : String
  confirmStyle : String
  metadata : Option (List (String × JsVal)) := none
deriving Repr, DecidableEq

namespace ConfirmButton

/-- `this.customId = ` util:confirm:action (line 24). -/
def customId (b : ConfirmButton) : String := "util:confirm:" ++ b.action

/-- `this.style` (line 25). -/
def style (b : ConfirmButton) : Nat :=
  if b.confirmStyle == "success" then ButtonStyleSuccess else ButtonStyleDanger

/-- `this.label` (line 26). -/
def label (b : ConfirmButton) : String :=
  if b.confirmStyle == "success" then "✅ Confirm" else "❌ Cancel"

/-- The `BaseComponent` view of a constructed `ConfirmButton`: `once` is
forced to true by the constructor (line 27); `type` is
`ComponentType.BUTTON`; `validate` is the inherited `BaseButton.validate`
(componentType must be BUTTON).  The body of `ConfirmButton.execute`
(user guard and confirmation embed) is outside every claim, so its outcome
is simply a normal return here. -/
def toBaseComponent (b : ConfirmButton) : BaseComponent :=
  { customId := b.customId, type := componentTypeMember "BUTTON",
    once := true,
    validate := fun ctx =>
      .ok (some ctx.componentType == componentTypeMember "BUTTON"),
    execute := fun _ => .ok (),
    cleanup := .ok () }

end ConfirmButton

namespace ConfirmButtonFactory

/-- `canHandle(customId)` (line 102): `PATTERN.test(customId)`. -/
def canHandle (customId : String) : Bool :=
  (confirmPATTERN customId).isSome

/-- `getPattern()` (line 122). -/
def getPattern : String := "util:confirm"

/-- `create(customId, context?)` (lines 106–119): re-match; throw if the
pattern fails; the style is the captured group or, when it is absent
(`match[2]` is `undefined`), inferred from the action.  The TS interface
`ComponentContext` has no `metadata` property, so `context?.metadata` is
always `undefined` and the constructed button carries no metadata. -/
def create (customId : String) : Except Err ConfirmButton :=
  match confirmPATTERN customId with
  | none => .error ⟨"Invalid ConfirmButton customId format: " ++ customId⟩
  | some (action, styleOpt) =>
      let style :=
        match styleOpt with
        | some s => s
        | none => inferStyleFromAction action
      .ok { action := action, confirmStyle := style, metadata := none }

/-- The factory as a generic registry `ComponentFactory`. -/
def asComponentFactory : ComponentFactory :=
  { pattern := getPattern,
    canHandle := canHandle,
    create := fun customId _ =>
      (create customId).map ConfirmButton.toBaseComponent }

end ConfirmButtonFactory

/-! ## Helper lemmas about the JS `Map` model -/

theorem mapHas_eq_isSome {α : Type} (m : List (String × α)) (k : String) :
    mapHas m k = (mapGet m k).isSome := by
  induction m with
  | nil => rfl
  | cons q rest ih =>
      cases hq : q.1 == k <;> simp [mapHas, mapGet, hq, ih]

theorem mapGet_exists_of_mem {α : Type} {m : List (String × α)}
    {p : String × α} (hp : p ∈ m) : ∃ v, mapGet m p.1 = some v := by
  induction m with
  | nil => cases hp
  | cons q rest ih =>
      cases hq : q.1 == p.1
      · rcases List.mem_cons.mp hp with rfl | hmem
        · simp at hq
        · obtain ⟨v, hv⟩ := ih hmem
          exact ⟨v, by simp [mapGet, hq, hv]⟩
      · exact ⟨q.2, by simp [mapGet, hq]⟩

theorem mapGet_of_mem_nodup {α : Type} {m : List (String × α)}
    (hnd : (m.map Prod.fst).Nodup) {p : String × α} (hp : p ∈ m) :
    mapGet m p.1 = some p.2 := by
  induction m with
  | nil => cases hp
  | cons q rest ih =>
      rcases List.mem_cons.mp hp with rfl | hmem
      · simp [mapGet]
      · have hne : q.1 ≠ p.1 := by
          intro heq
          have : p.1 ∈ rest.map Prod.fst := List.mem_map_of_mem Prod.fst hmem
          rw [← heq] at this
          exact (List.nodup_cons.mp hnd).1 this
        have hq : (q.1 == p.1) = false := beq_eq_false_iff_ne.mpr hne
        simp [mapGet, hq, ih (List.nodup_cons.mp hnd).2 hmem]

theorem mapGet_mapDelete_of_ne {α : Type} (m : List (String × α))
    {k k' : String} (h : k' ≠ k) :
    mapGet (mapDelete m k) k' = mapGet m k' := by
  induction m with
  | nil => rfl
  | cons q rest ih =>
      cases hq : q.1 == k
      · cases hq' : q.1 == k' <;> simp [mapDelete, mapGet, hq, hq', ih]
      · have hq' : (q.1 == k') = false := by
          have : q.1 = k := by simpa using hq
          exact beq_eq_false_iff_ne.mpr (this ▸ fun hk => h hk.symm)
        simp [mapDelete, mapGet, hq, hq', ih]

theorem mapGet_mapSet_self {α : Type} (m : List (String × α)) (k : String)
    (v : α) : mapGet (mapSet m k v) k = some v := by
  induction m with
  | nil => simp [mapSet, mapGet]
  | cons q rest ih =>
      cases hq : q.1 == k <;> simp [mapSet, mapGet, hq, ih]

theorem mapGet_mapSet_of_ne {α : Type} (m : List (String × α))
    {k k' : String} (v : α) (h : k' ≠ k) :
    mapGet (mapSet m k v) k' = mapGet m k' := by
  induction m with
  | nil => simp [mapSet, mapGet, beq_eq_false_iff_ne.mpr (fun e => h e.symm)]
  | cons q rest ih =>
      cases hq : q.1 == k
      · cases hq' : q.1 == k' <;> simp [mapSet, mapGet, hq, hq', ih]
      · have hqk : q.1 = k := by simpa using hq
        have hk' : (k == k') = false :=
          beq_eq_false_iff_ne.mpr (fun e => h e.symm)
        simp [mapSet, mapGet, hq, hqk, hk', beq_eq_false_iff_ne,
          hqk ▸ hk']

/-! ## Concrete fixtures used by witnesses and counterexamples -/

/-- A button context for `ns:btn`. -/
def ctx0 : ComponentContext :=
  { userId := "u1", customId := "ns:btn", componentType := 2 }

/-- A well-behaved single-use component. -/
def comp0 : BaseComponent :=
  { customId := "ns:btn", type := some 2, once := true,
    execute := fun _ => .ok () }

/-- A dynamic component under the same customId (its validate rejects, so a
dispatch reaching it would be observably different from `comp0`). -/
def dynComp0 : BaseComponent :=
  { customId := "ns:btn", type := some 2,
    validate := fun _ => .ok false, execute := fun _ => .ok () }

/-- Registry with `comp0` registered persistently. -/
def reg0 : ComponentRegistry := ComponentRegistry.register {} comp0

/-- Handler with `dynComp0` registered dynamically. -/
def hand0 : ComponentHandler := ComponentHandler.register {} dynComp0

/-- A factory whose `canHandle` always matches but whose `create` always
throws (the spec's "construction error" case). -/
def badFactory : ComponentFactory :=
  { pattern := "bad", canHandle := fun _ => true,
    create := fun customId _ =>
      .error ⟨"Factory construction failed: " ++ customId⟩ }

/-- Registry holding only `badFactory`. -/
def badRegistry : ComponentRegistry :=
  ComponentRegistry.registerFactory {} badFactory

/-- A component whose `execute` throws. -/
def failComp : BaseComponent :=
  { customId := "ns:fail", type := some 2,
    execute := fun _ => .error ⟨"boom"⟩ }

/-- Handler with `failComp` registered dynamically. -/
def handFail : ComponentHandler := ComponentHandler.register {} failComp

/-- A context whose error-notice reply itself throws. -/
def ctxFail : ComponentContext :=
  { userId := "u1", customId := "ns:fail", componentType := 2,
    replyResult := .error ⟨"reply failed"⟩ }

/-! ## Claim C4 — executeWithValidation orchestration -/

/-- C4: `executeWithValidation` first calls `validate`; a false validate
returns normally without calling `execute`; a true validate leads to
`execute`, whose exception propagates to the caller; and `cleanup` is
called exactly when `once` is true and `execute` completed without
throwing. -/
theorem C4_execute_with_validation (c : BaseComponent)
    (ctx : ComponentContext) :
    (c.validate ctx = .ok false →
      (executeWithValidation c ctx).1 = .ok () ∧
      Event.executeCall ∉ (executeWithValidation c ctx).2) ∧
    (c.validate ctx = .ok true →
      Event.executeCall ∈ (executeWithValidation c ctx).2) ∧
    (∀ e : Err, c.validate ctx = .ok true → c.execute ctx = .error e →
      (executeWithValidation c ctx).1 = .error e) ∧
    (Event.cleanupCall ∈ (executeWithValidation c ctx).2 ↔
      c.validate ctx = .ok true ∧ c.once = true ∧ c.execute ctx = .ok ()) := by
  rcases hv : c.validate ctx with e | b
  · simp [executeWithValidation, hv]
  · cases b
    · simp [executeWithValidation, hv]
    · rcases he : c.execute ctx with e2 | ⟨⟩
      · simp [executeWithValidation, hv, he]
      · cases ho : c.once
        · simp [executeWithValidation, hv, he, ho]
        · rcases hc : c.cleanup with e3 | ⟨⟩ <;>
            simp [executeWithValidation, hv, he, ho, hc]

/-- C4 witness: on the concrete once-component `comp0` (validate true,
execute succeeds) cleanup is invoked. -/
theorem C4_execute_with_validation_witness :
    Event.cleanupCall ∈ (executeWithValidation comp0 ctx0).2 :=
  (C4_execute_with_validation comp0 ctx0).2.2.2.mpr ⟨rfl, rfl, rfl⟩

/-! ## Claim C1 — persistent-registry-first precedence -/

/-- C1: when a customId has a direct persistent registration and a dynamic
registration, `dispatch` resolves to the persistent component and runs
`executeWithValidation` on it (the dynamic map is never consulted). -/
theorem C1_persistent_precedence (r : ComponentRegistry)
    (h : ComponentHandler) (customId : String) (ctx : ComponentContext)
    (p : BaseComponent)
    (hp : mapGet r.components customId = some p)
    (_hd : mapHas h.components customId = true) :
    ComponentHandler.resolve h r customId ctx = some p ∧
    ComponentHandler.dispatch h r customId ctx =
      ComponentHandler.dispatchResolved p ctx := by
  have hg : r.get customId (some ctx) = some p := by
    unfold ComponentRegistry.get
    rw [hp]
  refine ⟨?_, ?_⟩
  · unfold ComponentHandler.resolve
    rw [hg]
  · unfold ComponentHandler.dispatch ComponentHandler.resolve
    rw [hg]

/-- C1 witness: `comp0` persistent and `dynComp0` dynamic under `ns:btn` —
dispatch goes to `comp0`. -/
theorem C1_persistent_precedence_witness :
    ComponentHandler.resolve hand0 reg0 "ns:btn" ctx0 = some comp0 ∧
    ComponentHandler.dispatch hand0 reg0 "ns:btn" ctx0 =
      ComponentHandler.dispatchResolved comp0 ctx0 :=
  C1_persistent_precedence reg0 hand0 "ns:btn" ctx0 comp0 rfl rfl

/-! ## Claim C2 — has/get lookup consistency -/

/-- C2 counterexample: with a registered factory whose `canHandle` matches
`"x"` but whose `create` throws, and no mutation in between, `has("x")` is
true while `get("x")` returns null — the claim fails as stated for
registries whose factories may throw. -/
theorem C2_lookup_consistency_cex :
    badRegistry.has "x" = true ∧ badRegistry.get "x" none = none :=
  ⟨rfl, rfl⟩

/-- C2 amended: if `has(id)` is true and no mutation occurs, `get(id)`
returns non-null provided the factory resolution `get` would use (the
first registered factory whose `canHandle(id)` is true) does not throw on
`create`. -/
theorem C2_lookup_consistency_amended (r : ComponentRegistry)
    (customId : String) (ctx : Option ComponentContext)
    (hhas : r.has customId = true)
    (hok : ∀ pf,
      r.factories.find? (fun q => q.2.canHandle customId) = some pf →
      isThrow (pf.2.create customId ctx) = false) :
    r.get customId ctx ≠ none := by
  unfold ComponentRegistry.get
  cases hg : mapGet r.components customId with
  | some c => simp
  | none =>
      unfold ComponentRegistry.has at hhas
      rw [mapHas_eq_isSome, hg] at hhas
      simp only [Option.isSome_none, Bool.false_or] at hhas
      obtain ⟨pf, hfind⟩ :=
        Option.isSome_iff_exists.mp
          (List.find?_isSome.mpr (List.any_eq_true.mp hhas))
      rw [hfind]
      have hthrow := hok pf hfind
      rcases hc : pf.2.create customId ctx with e | c
      · rw [hc] at hthrow
        simp [isThrow] at hthrow
      · simp [hc]

/-- C2 witness: on `reg0` (direct entry, no factories) `has` implies a
non-null `get`. -/
theorem C2_lookup_consistency_witness : reg0.get "ns:btn" none ≠ none :=
  C2_lookup_consistency_amended reg0 "ns:btn" none rfl
    (fun _pf hf => nomatch hf)

/-! ## Claim C5 — dispatch is a terminal sink -/

/-- `executeWithValidation` never performs the error-notice reply itself. -/
theorem replyCall_not_in_ewv (c : BaseComponent) (ctx : ComponentContext) :
    Event.replyCall ∉ (executeWithValidation c ctx).2 := by
  rcases hv : c.validate ctx with e | b
  · simp [executeWithValidation, hv]
  · cases b
    · simp [executeWithValidation, hv]
    · rcases he : c.execute ctx with e2 | ⟨⟩
      · simp [executeWithValidation, hv, he]
      · cases ho : c.once
        · simp [executeWithValidation, hv, he, ho]
        · rcases hc : c.cleanup with e3 | ⟨⟩ <;>
            simp [executeWithValidation, hv, he, ho, hc]

/-- C5: `dispatch` always returns normally (never rethrows): on an
unresolved customId it only logs a warning; on a thrown error from
`executeWithValidation` it attempts exactly one reply through the
context's responder (and zero otherwise), whether or not that reply
itself throws. -/
theorem C5_dispatch_never_throws (h : ComponentHandler)
    (r : ComponentRegistry) (customId : String) (ctx : ComponentContext) :
    (ComponentHandler.dispatch h r customId ctx).1 = .ok () ∧
    (ComponentHandler.dispatch h r customId ctx).2.count Event.replyCall =
      (match ComponentHandler.resolve h r customId ctx with
       | none => 0
       | some c => if isThrow (executeWithValidation c ctx).1 then 1 else 0) ∧
    (ComponentHandler.resolve h r customId ctx = none →
      (ComponentHandler.dispatch h r customId ctx).2 =
        [Event.logWarn "No component handler found for customId"]) := by
  unfold ComponentHandler.dispatch
  cases hres : ComponentHandler.resolve h r customId ctx with
  | none => simp
  | some c =>
      have hnr := replyCall_not_in_ewv c ctx
      refine ⟨?_, ?_, by simp⟩
      · unfold ComponentHandler.dispatchResolved
        rcases hr : (executeWithValidation c ctx).1 with e | ⟨⟩
        · rcases hrr : ctx.replyResult with e2 | ⟨⟩ <;> simp [hr, hrr]
        · simp [hr]
      · unfold ComponentHandler.dispatchResolved
        rcases hr : (executeWithValidation c ctx).1 with e | ⟨⟩
        · rcases hrr : ctx.replyResult with e2 | ⟨⟩ <;>
            simp [hr, hrr, isThrow, List.count_append, List.count_cons,
              List.count_eq_zero.mpr hnr]
        · simp [hr, isThrow, List.count_append,
            List.count_eq_zero.mpr hnr]

/-- C5 witness: a dynamic component whose execute throws, in a context
whose reply also throws — dispatch still returns normally with exactly
one reply attempt. -/
theorem C5_dispatch_never_throws_witness :
    (ComponentHandler.dispatch handFail {} "ns:fail" ctxFail).1 = .ok () ∧
    (ComponentHandler.dispatch handFail {} "ns:fail" ctxFail).2.count
        Event.replyCall =
      (match ComponentHandler.resolve handFail {} "ns:fail" ctxFail with
       | none => 0
       | some c =>
          if isThrow (executeWithValidation c ctxFail).1 then 1 else 0) ∧
    (ComponentHandler.resolve handFail {} "ns:fail" ctxFail = none →
      (ComponentHandler.dispatch handFail {} "ns:fail" ctxFail).2 =
        [Event.logWarn "No component handler found for customId"]) :=
  C5_dispatch_never_throws handFail {} "ns:fail" ctxFail

/-! ## Claim C3 — usageCount across dispatches -/

/-- The state produced by registering `comp0` through `ComponentManager`
at time 1000 (a manager, handler and returned customId triple). -/
def mgrReg : ComponentManager × ComponentHandler × String :=
  ComponentManager.registerComponent {} {} comp0 {} 1000

/-- The cache entry created by that registration. -/
def entry0 : ComponentCacheEntry :=
  { component := comp0, registeredAt := 1000,
    timeout := ComponentManager.DEFAULT_TIMEOUT, metadata := [],
    usageCount := 0, lastUsed := 1000 }

/-- C3 counterexample: `comp0` is registered via
`ComponentManager.registerComponent`, one dispatch of its customId
succeeds (its `execute` is invoked), yet the cache entry's `usageCount`
is still 0, not 1.  `dispatch` takes no `ComponentManager` state and
returns none (it never calls `updateComponentMetadata`), so the entry is
untouched by any number of dispatches. -/
theorem C3_usage_count_cex :
    (ComponentHandler.dispatch mgrReg.2.1 {} "ns:btn" ctx0).1 = .ok () ∧
    Event.executeCall ∈
      (ComponentHandler.dispatch mgrReg.2.1 {} "ns:btn" ctx0).2 ∧
    (mapGet mgrReg.1.componentCache "ns:btn").map
      ComponentCacheEntry.usageCount = some 0 := by
  refine ⟨rfl, ?_, rfl⟩
  show Event.executeCall ∈ (ComponentHandler.dispatchResolved comp0 ctx0).2
  decide

/-- C3 amended: `registerComponent` initializes the entry with
`usageCount = 0` and `lastUsed = now`, and `usageCount`/`lastUsed` are
mutated only by an explicit `updateComponentMetadata` call (which
increments the count by one, sets `lastUsed` and merges the metadata);
no dispatch path performs that call, so after n successful dispatches
with no other cache operation the count remains 0. -/
theorem C3_usage_count_amended (m : ComponentManager) (h : ComponentHandler)
    (c : BaseComponent) (opts : ComponentOptions) (now : Int)
    (customId : String) (md : List (String × JsVal)) (now2 : Int)
    (e : ComponentCacheEntry)
    (he : mapGet m.componentCache customId = some e) :
    mapGet (ComponentManager.registerComponent m h c opts
        now).1.componentCache c.customId =
      some { component := c, registeredAt := now,
             timeout := opts.timeout.getD ComponentManager.DEFAULT_TIMEOUT,
             metadata := opts.metadata.getD [], usageCount := 0,
             lastUsed := now } ∧
    mapGet (ComponentManager.updateComponentMetadata m customId md
        now2).componentCache customId =
      some { e with metadata := ComponentManager.objMerge e.metadata md,
                    lastUsed := now2, usageCount := e.usageCount + 1 } := by
  constructor
  · exact mapGet_mapSet_self ..
  · unfold ComponentManager.updateComponentMetadata
    rw [he]
    exact mapGet_mapSet_self ..

/-- C3 witness: the amended statement at the registration state `mgrReg`. -/
theorem C3_usage_count_witness :
    mapGet (ComponentManager.registerComponent mgrReg.1 mgrReg.2.1 failComp
        {} 3000).1.componentCache failComp.customId =
      some { component := failComp, registeredAt := 3000,
             timeout :=
               (ComponentOptions.timeout {}).getD
                 ComponentManager.DEFAULT_TIMEOUT,
             metadata := (ComponentOptions.metadata {}).getD [],
             usageCount := 0, lastUsed := 3000 } ∧
    mapGet (ComponentManager.updateComponentMetadata mgrReg.1 "ns:btn"
        [("k", JsVal.str "v")] 2000).componentCache "ns:btn" =
      some { entry0 with
               metadata :=
                 ComponentManager.objMerge entry0.metadata
                   [("k", JsVal.str "v")],
               lastUsed := 2000, usageCount := entry0.usageCount + 1 } :=
  C3_usage_count_amended mgrReg.1 mgrReg.2.1 failComp {} 3000 "ns:btn"
    [("k", JsVal.str "v")] 2000 entry0 rfl

/-! ## Claim C6 — ConfirmButton factory construction -/

/-- Registry with the ConfirmButton factory registered and no persistent
entries. -/
def confirmRegistry : ComponentRegistry :=
  ComponentRegistry.registerFactory {} ConfirmButtonFactory.asComponentFactory

/-- C6: with the ConfirmButtonFactory registered and no persistent entry,
`util:confirm:delete-message` constructs action="delete-message" with the
default style "success"; `util:confirm:delete-message:danger` constructs
action="delete-message" with the explicit style "danger"; and
`util:confirm:test-danger` (no explicit style, action ending in
"-danger") constructs the inferred style "danger" — both at the factory
`create` and through `ComponentRegistry.get` resolution. -/
theorem C6_confirm_factory_styles :
    ConfirmButtonFactory.create "util:confirm:delete-message" =
      .ok { action := "delete-message", confirmStyle := "success",
            metadata := none } ∧
    ConfirmButtonFactory.create "util:confirm:delete-message:danger" =
      .ok { action := "delete-message", confirmStyle := "danger",
            metadata := none } ∧
    ConfirmButtonFactory.create "util:confirm:test-danger" =
      .ok { action := "test-danger", confirmStyle := "danger",
            metadata := none } ∧
    confirmRegistry.get "util:confirm:delete-message" none =
      some (ConfirmButton.toBaseComponent
        { action := "delete-message", confirmStyle := "success",
          metadata := none }) ∧
    confirmRegistry.get "util:confirm:delete-message:danger" none =
      some (ConfirmButton.toBaseComponent
        { action := "delete-message", confirmStyle := "danger",
          metadata := none }) ∧
    confirmRegistry.get "util:confirm:test-danger" none =
      some (ConfirmButton.toBaseComponent
        { action := "test-danger", confirmStyle := "danger",
          metadata := none }) :=
  ⟨rfl, rfl, rfl, rfl, rfl, rfl⟩

/-! ## Claim C9 — the Modal component type tag -/

/-- A well-formed modal (title length within 1–45, one input). -/
def feedbackModal : BaseModal :=
  { customId := "util:feedback", title := "Feedback",
    inputs := [{ customId := "feedback:subject", label := "Subject",
                 style := 1, required := some true }] }

/-- A modal-submission context carrying a numeric component type tag. -/
def ctxModal : ComponentContext :=
  { userId := "u1", customId := "util:feedback", componentType := 9 }

/-- C9: the `ComponentType` enum has no `MODAL` member (only the six
non-modal names, with `SELECT_MENU`/`STRING_SELECT` sharing value 3), so
`ComponentType.MODAL` is `undefined` and `BaseModal.validate` returns
false even for a well-formed modal in a modal context — the guard
`context.componentType !== ComponentType.MODAL` compares a number with
`undefined` and always takes the reject branch. -/
theorem C9_modal_tag_missing :
    componentTypeMember "MODAL" = none ∧
    componentTypeMembers.map Prod.fst =
      ["BUTTON", "SELECT_MENU", "STRING_SELECT", "USER_SELECT",
       "ROLE_SELECT", "MENTIONABLE_SELECT", "CHANNEL_SELECT"] ∧
    1 ≤ feedbackModal.title.length ∧ feedbackModal.title.length ≤ 45 ∧
    1 ≤ feedbackModal.inputs.length ∧ feedbackModal.inputs.length ≤ 5 ∧
    BaseModal.validate feedbackModal ctxModal = false := by
  refine ⟨rfl, rfl, ?_, ?_, ?_, ?_, ?_⟩ <;> decide

/-! ## Claim C10 — generateCustomId/parseCustomId round trip -/

theorem stringMk_data (s : String) : (⟨s.data⟩ : String) = s := by
  cases s
  rfl

theorem jsSplit_ne_nil (sep : Char) (l : List Char) : jsSplit sep l ≠ [] := by
  cases l with
  | nil => simp [jsSplit]
  | cons c rest =>
      unfold jsSplit
      by_cases hc : c = sep
      · simp [hc]
      · simp only [hc, if_false]
        cases jsSplit sep rest <;> simp

theorem jsSplit_no_sep {a : List Char} (h : ':' ∉ a) :
    jsSplit ':' a = [a] := by
  induction a with
  | nil => rfl
  | cons c rest ih =>
      have hc : ¬ (c = ':') := fun e => h (by rw [e]; exact List.mem_cons_self _ _)
      have hr := ih (fun hm => h (List.mem_cons_of_mem _ hm))
      unfold jsSplit
      simp [hc, hr]

theorem jsSplit_append {a : List Char} (b : List Char) (h : ':' ∉ a) :
    jsSplit ':' (a ++ ':' :: b) = a :: jsSplit ':' b := by
  induction a with
  | nil => simp [jsSplit]
  | cons c rest ih =>
      have hc : ¬ (c = ':') := fun e => h (by rw [e]; exact List.mem_cons_self _ _)
      have hr := ih (fun hm => h (List.mem_cons_of_mem _ hm))
      unfold jsSplit
      simp [hc, hr]
      cases b <;> simp [jsSplit]

theorem b64Char_mem (i : Nat) : b64Char i ∈ b64Chars := by
  unfold b64Char
  rcases Nat.lt_or_ge i b64Chars.length with hlt | hge
  · rw [List.getD_eq_getElem _ _ hlt]
    exact List.getElem_mem hlt
  · rw [List.getD_eq_default _ _ hge]
    decide

theorem colon_ne_b64Char (i : Nat) : (':' : Char) ≠ b64Char i := by
  intro h
  have := b64Char_mem i
  rw [← h] at this
  revert this
  decide

theorem colon_not_in_base64 : ∀ bs : List Nat, ':' ∉ base64Rec bs
  | [] => by simp [base64Rec]
  | [b0] => by
      simp [base64Rec, colon_ne_b64Char]
  | [b0, b1] => by
      simp [base64Rec, colon_ne_b64Char]
  | b0 :: b1 :: b2 :: rest => by
      have ih := colon_not_in_base64 rest
      simp [base64Rec, colon_ne_b64Char, ih]

theorem colon_not_in_hash (md : List (String × JsVal)) :
    ':' ∉ (hashMetadata md).data := by
  intro hmem
  exact colon_not_in_base64 _ (List.take_subset _ _ hmem)

/-- C10: for colon-free nonempty namespace and componentId and any
metadata bag, `parseCustomId (generateCustomId ns id md)` succeeds and
returns the namespace and componentId unchanged, with a metadata hash
present exactly when the bag is non-empty. -/
theorem C10_custom_id_round_trip (ns id : String)
    (md : List (String × JsVal)) (_hns : ns ≠ "") (_hid : id ≠ "")
    (hnc : ':' ∉ ns.data) (hic : ':' ∉ id.data) :
    parseCustomId (generateCustomId ns id (some md)) =
      .ok { nspace := ns, componentId := id,
            fullId := generateCustomId ns id (some md),
            metadataHash :=
              if md.length > 0 then some (hashMetadata md) else none } := by
  cases md with
  | nil =>
      have hdata : (ns ++ ":" ++ id).data = ns.data ++ ':' :: id.data := by
        simp [String.data_append]
      unfold generateCustomId parseCustomId
      simp only [List.length_nil, gt_iff_lt, Nat.lt_irrefl, if_false]
      rw [hdata, jsSplit_append _ hnc, jsSplit_no_sep hic]
      simp [stringMk_data]
  | cons q md' =>
      have hdata :
          (ns ++ ":" ++ id ++ ":" ++ hashMetadata (q :: md')).data =
            ns.data ++ ':' ::
              (id.data ++ ':' :: (hashMetadata (q :: md')).data) := by
        simp [String.data_append]
      unfold generateCustomId parseCustomId
      simp only [List.length_cons, gt_iff_lt, Nat.succ_pos, if_true]
      rw [hdata, jsSplit_append _ hnc, jsSplit_append _ hic,
        jsSplit_no_sep (colon_not_in_hash (q :: md'))]
      simp [stringMk_data]

/-- C10 witness at a concrete namespace, id and non-empty metadata bag. -/
theorem C10_custom_id_round_trip_witness :
    parseCustomId
        (generateCustomId "leveling" "claim-reward"
          (some [("a", JsVal.num 1)])) =
      .ok { nspace := "leveling", componentId := "claim-reward",
            fullId :=
              generateCustomId "leveling" "claim-reward"
                (some [("a", JsVal.num 1)]),
            metadataHash :=
              if ([("a", JsVal.num 1)] : List (String × JsVal)).length > 0
              then some (hashMetadata [("a", JsVal.num 1)]) else none } :=
  C10_custom_id_round_trip "leveling" "claim-reward" [("a", JsVal.num 1)]
    (by decide) (by decide) (by decide) (by decide)

/-! ## Claim C7 — getComponentsByNamespace -/

/-- The first colon-delimited segment of a customId. -/
def firstSegment (s : String) : String :=
  ⟨(jsSplit ':' s.data).headD []⟩

/-- A component whose customId has a single colon-free segment. -/
def compBare : BaseComponent :=
  { customId := "bareword", type := some 2, execute := fun _ => .ok () }

/-- Manager state after registering `compBare`. -/
def mgrBare : ComponentManager × ComponentHandler × String :=
  ComponentManager.registerComponent {} {} compBare {} 0

/-- C7 counterexample: with `"bareword"` cached (fewer than two
colon-delimited segments), `getComponentsByNamespace` does not return a
result — the `parseCustomId` throw propagates out of it. -/
theorem C7_namespace_filter_cex :
    ComponentManager.getComponentsByNamespace mgrBare.1 "x" =
      .error ⟨"Invalid customId format: bareword"⟩ := rfl

theorem namespaceLoop_ok (ns : String) :
    ∀ l : List (String × ComponentCacheEntry),
      (∀ p ∈ l, 2 ≤ (jsSplit ':' p.1.data).length) →
      ComponentManager.namespaceLoop ns l =
        .ok ((l.filter (fun p => firstSegment p.1 == ns)).map
          (fun p => p.2.component)) := by
  intro l
  induction l with
  | nil => intro _; rfl
  | cons p rest ih =>
      intro hseg
      obtain ⟨cid, e⟩ := p
      have h2 := hseg (cid, e) (List.mem_cons_self _ _)
      have hrest := ih (fun q hq => hseg q (List.mem_cons_of_mem _ hq))
      unfold ComponentManager.namespaceLoop
      rw [hrest]
      rcases hsplit : jsSplit ':' cid.data with _ | ⟨s0, t⟩
      · rw [hsplit] at h2
        simp at h2
      · rcases t with _ | ⟨s1, t'⟩
        · rw [hsplit] at h2
          simp at h2
        · have hfs : firstSegment cid = (⟨s0⟩ : String) := by
            unfold firstSegment
            rw [hsplit]
            rfl
          have hlt : ¬ (t'.length + 1 + 1 < 2) := by omega
          by_cases hb : (⟨s0⟩ : String) = ns <;>
            simp [parseCustomId, hsplit, hfs, hb, hlt]

/-- C7 amended: when every cached customId has at least two
colon-delimited segments, `getComponentsByNamespace ns` succeeds and
returns exactly the components of the entries whose first segment is
`ns`; under the cache invariants (keys are the components' customIds and
are unique) that list is duplicate-free. -/
theorem C7_namespace_filter_amended (m : ComponentManager) (ns : String)
    (hseg : ∀ p ∈ m.componentCache, 2 ≤ (jsSplit ':' p.1.data).length)
    (hkey : ∀ p ∈ m.componentCache, p.2.component.customId = p.1)
    (hnd : (m.componentCache.map Prod.fst).Nodup) :
    ComponentManager.getComponentsByNamespace m ns =
      .ok ((m.componentCache.filter (fun p => firstSegment p.1 == ns)).map
        (fun p => p.2.component)) ∧
    ((m.componentCache.filter (fun p => firstSegment p.1 == ns)).map
      (fun p => p.2.component)).Nodup := by
  refine ⟨namespaceLoop_ok ns m.componentCache hseg, ?_⟩
  have h1 :
      (((m.componentCache.filter (fun p => firstSegment p.1 == ns)).map
        (fun p => p.2.component)).map (fun c => c.customId)) =
      (m.componentCache.filter (fun p => firstSegment p.1 == ns)).map
        Prod.fst := by
    rw [List.map_map]
    exact List.map_congr_left
      (fun p hp => hkey p (List.mem_of_mem_filter hp))
  have h2 :
      ((m.componentCache.filter (fun p => firstSegment p.1 == ns)).map
        Prod.fst).Nodup :=
    hnd.sublist ((List.filter_sublist _).map Prod.fst)
  exact List.Nodup.of_map _ (h1.symm ▸ h2)

/-- Two components in distinct namespaces. -/
def compLvl : BaseComponent :=
  { customId := "leveling:claim", type := some 2, execute := fun _ => .ok () }

def compTicket : BaseComponent :=
  { customId := "ticket:close", type := some 2, execute := fun _ => .ok () }

/-- A cache entry wrapper for sweep/namespace fixtures. -/
def entryOf (c : BaseComponent) (registeredAt timeout : Int) :
    ComponentCacheEntry :=
  { component := c, registeredAt := registeredAt, timeout := timeout,
    metadata := [], usageCount := 0, lastUsed := registeredAt }

/-- Manager with one `leveling` and one `ticket` entry. -/
def mgrNs : ComponentManager :=
  ⟨[("leveling:claim", entryOf compLvl 0 1000),
    ("ticket:close", entryOf compTicket 0 1000)]⟩

/-- C7 witness: the amended statement at the concrete two-entry cache. -/
theorem C7_namespace_filter_witness :
    ComponentManager.getComponentsByNamespace mgrNs "leveling" =
      .ok ((mgrNs.componentCache.filter
        (fun p => firstSegment p.1 == "leveling")).map
          (fun p => p.2.component)) ∧
    ((mgrNs.componentCache.filter
      (fun p => firstSegment p.1 == "leveling")).map
        (fun p => p.2.component)).Nodup :=
  C7_namespace_filter_amended mgrNs "leveling" (by decide) (by decide)
    (by decide)

/-! ## Claim C8 — expiry and the sweep -/

/-- The age condition of `isComponentExpired` on a present entry:
`now - registeredAt > timeout`. -/
def expiredAt (e : ComponentCacheEntry) (now : Int) : Bool :=
  now - e.registeredAt > e.timeout

theorem isComponentExpired_of_some {m : ComponentManager} {id : String}
    {now : Int} {e : ComponentCacheEntry}
    (h : mapGet m.componentCache id = some e) :
    m.isComponentExpired id now = expiredAt e now := by
  unfold ComponentManager.isComponentExpired
  rw [h]
  rfl

theorem isComponentExpired_of_none {m : ComponentManager} {id : String}
    {now : Int} (h : mapGet m.componentCache id = none) :
    m.isComponentExpired id now = true := by
  unfold ComponentManager.isComponentExpired
  rw [h]

theorem mapDelete_eq_filter {α : Type} (c : List (String × α)) (k : String) :
    mapDelete c k = c.filter (fun q => !(q.1 == k)) := by
  induction c with
  | nil => rfl
  | cons q rest ih =>
      cases hq : q.1 == k <;> simp [mapDelete, hq, ih]

/-- The effect of the sweep loop on either shared map: delete the key of
every expired snapshot entry. -/
def delFold {α : Type} (now : Int) :
    List (String × ComponentCacheEntry) → List (String × α) →
    List (String × α)
  | [], c => c
  | p :: rest, c =>
      delFold now rest (if expiredAt p.2 now then mapDelete c p.1 else c)

theorem cleanupLoop_spec (now : Int) :
    ∀ (l : List (String × ComponentCacheEntry)) (m : ComponentManager)
      (h : ComponentHandler) (n : Nat),
      (∀ p ∈ l, mapGet m.componentCache p.1 = some p.2) →
      (l.map Prod.fst).Nodup →
      ComponentManager.cleanupLoop now l m h n =
        (⟨delFold now l m.componentCache⟩, ⟨delFold now l h.components⟩,
          n + l.countP (fun p => expiredAt p.2 now)) := by
  intro l
  induction l with
  | nil =>
      intro m h n _ _
      simp [ComponentManager.cleanupLoop, delFold]
  | cons p rest ih =>
      intro m h n hinv hnd
      obtain ⟨cid, e⟩ := p
      have hget := hinv (cid, e) (List.mem_cons_self _ _)
      have hnd' : cid ∉ rest.map Prod.fst ∧ (rest.map Prod.fst).Nodup :=
        List.nodup_cons.mp (by simpa using hnd)
      unfold ComponentManager.cleanupLoop
      rw [isComponentExpired_of_some hget]
      cases hexp : expiredAt e now
      · rw [ih m h n (fun q hq => hinv q (List.mem_cons_of_mem _ hq))
          hnd'.2]
        simp [delFold, hexp, List.countP_cons]
      · have hunreg : m.unregisterComponent h cid =
            (⟨mapDelete m.componentCache cid⟩,
             ⟨mapDelete h.components cid⟩) := by
          unfold ComponentManager.unregisterComponent
          rw [hget]
          rfl
        rw [hunreg]
        have hinv' : ∀ q ∈ rest,
            mapGet (mapDelete m.componentCache cid) q.1 = some q.2 := by
          intro q hq
          have hne : q.1 ≠ cid := by
            intro heq
            exact hnd'.1 (heq ▸ List.mem_map_of_mem Prod.fst hq)
          rw [mapGet_mapDelete_of_ne _ hne]
          exact hinv q (List.mem_cons_of_mem _ hq)
        rw [ih ⟨mapDelete m.componentCache cid⟩ ⟨mapDelete h.components cid⟩
          (n + 1) hinv' hnd'.2]
        simp [delFold, hexp, List.countP_cons]
        omega

theorem delFold_eq_filter {α : Type} (now : Int) :
    ∀ (l : List (String × ComponentCacheEntry)) (c : List (String × α)),
      delFold now l c =
        c.filter (fun q =>
          !(l.any (fun p => expiredAt p.2 now && q.1 == p.1))) := by
  intro l
  induction l with
  | nil => intro c; simp [delFold]
  | cons p rest ih =>
      intro c
      cases hexp : expiredAt p.2 now
      · simp [delFold, hexp, ih, List.any_cons]
      · simp [delFold, hexp, ih, List.any_cons, mapDelete_eq_filter,
          List.filter_filter, Bool.not_or]
        exact List.filter_congr (fun q _ => by rw [Bool.and_comm])

theorem any_expired_self {l : List (String × ComponentCacheEntry)}
    (hnd : (l.map Prod.fst).Nodup) {q : String × ComponentCacheEntry}
    (hq : q ∈ l) (now : Int) :
    (l.any (fun p => expiredAt p.2 now && q.1 == p.1)) =
      expiredAt q.2 now := by
  cases hexp : expiredAt q.2 now
  · rw [List.any_eq_false]
    intro p hp
    by_cases he : q.1 = p.1
    · have hqp : q = p := List.inj_on_of_nodup_map hnd hq hp he
      simp [← hqp, hexp]
    · simp [he]
  · exact List.any_eq_true.mpr ⟨q, hq, by simp [hexp]⟩

theorem getAllComponentStats_ids (m : ComponentManager) (now : Int) :
    (ComponentManager.getAllComponentStats m now).map (fun s => s.customId)
      = m.componentCache.map Prod.fst := by
  unfold ComponentManager.getAllComponentStats
  have haux : ∀ kl : List String,
      (∀ id ∈ kl, ∃ e, mapGet m.componentCache id = some e) →
      ((kl.filterMap
        (fun id => ComponentManager.getComponentStats m id now)).map
          (fun s => s.customId)) = kl := by
    intro kl
    induction kl with
    | nil => intro _; rfl
    | cons id rest ih =>
        intro hall
        obtain ⟨e, he⟩ := hall id (List.mem_cons_self _ _)
        have hstat : ComponentManager.getComponentStats m id now = some
            { customId := id, usageCount := e.usageCount,
              age := now - e.registeredAt,
              timeSinceLastUse := now - e.lastUsed,
              expired := m.isComponentExpired id now,
              metadata := e.metadata } := by
          unfold ComponentManager.getComponentStats
          rw [he]
          rfl
        rw [List.filterMap_cons, hstat]
        simp [ih (fun i hi => hall i (List.mem_cons_of_mem _ hi))]
  apply haux
  intro id hid
  obtain ⟨p, hp, hpe⟩ := List.mem_map.mp hid
  exact hpe ▸ mapGet_exists_of_mem hp

/-- C8: on a cached entry `isComponentExpired` is exactly
`now - registeredAt > timeout`; on a missing id it is true; one sweep run
removes from the cache exactly the entries expired at that moment (leaving
the others in place), removes the matching entries from the handler map,
and the swept state's `getAllComponentStats` lists exactly the surviving
customIds. -/
theorem C8_expiry_sweep (m : ComponentManager) (h : ComponentHandler)
    (now now2 : Int)
    (hnd : (m.componentCache.map Prod.fst).Nodup) :
    (∀ id e, mapGet m.componentCache id = some e →
      m.isComponentExpired id now = expiredAt e now) ∧
    (∀ id, mapGet m.componentCache id = none →
      m.isComponentExpired id now = true) ∧
    ((m.cleanupExpiredComponents h now).1.componentCache =
      m.componentCache.filter (fun p => !expiredAt p.2 now)) ∧
    ((m.cleanupExpiredComponents h now).2.1.components =
      h.components.filter (fun q =>
        !(m.componentCache.any
          (fun p => expiredAt p.2 now && q.1 == p.1)))) ∧
    ((ComponentManager.getAllComponentStats
        (m.cleanupExpiredComponents h now).1 now2).map
          (fun s => s.customId) =
      (m.componentCache.filter (fun p => !expiredAt p.2 now)).map
        Prod.fst) := by
  have hspec := cleanupLoop_spec now m.componentCache m h 0
    (fun p hp => mapGet_of_mem_nodup hnd hp) hnd
  have hcache : (m.cleanupExpiredComponents h now).1.componentCache =
      m.componentCache.filter (fun p => !expiredAt p.2 now) := by
    unfold ComponentManager.cleanupExpiredComponents
    rw [hspec]
    show delFold now m.componentCache m.componentCache = _
    rw [delFold_eq_filter]
    exact List.filter_congr
      (fun q hq => by rw [any_expired_self hnd hq])
  refine ⟨fun id e he => isComponentExpired_of_some he,
          fun id he => isComponentExpired_of_none he, hcache, ?_, ?_⟩
  · unfold ComponentManager.cleanupExpiredComponents
    rw [hspec]
    exact delFold_eq_filter now m.componentCache h.components
  · rw [getAllComponentStats_ids, hcache]

/-- Manager with a 100ms-timeout entry registered at 0 and a 1000ms one. -/
def mgrSweep : ComponentManager :=
  ⟨[("leveling:claim", entryOf compLvl 0 100),
    ("ticket:close", entryOf compTicket 0 1000)]⟩

/-- Matching handler map. -/
def handSweep : ComponentHandler :=
  ⟨[("leveling:claim", compLvl), ("ticket:close", compTicket)]⟩

/-- C8 witness at time 150: the 100ms entry (age 150 > 100) is expired
and swept; the 1000ms entry survives. -/
theorem C8_expiry_sweep_witness :
    (∀ id e, mapGet mgrSweep.componentCache id = some e →
      mgrSweep.isComponentExpired id 150 = expiredAt e 150) ∧
    (∀ id, mapGet mgrSweep.componentCache id = none →
      mgrSweep.isComponentExpired id 150 = true) ∧
    ((mgrSweep.cleanupExpiredComponents handSweep 150).1.componentCache =
      mgrSweep.componentCache.filter (fun p => !expiredAt p.2 150)) ∧
    ((mgrSweep.cleanupExpiredComponents handSweep 150).2.1.components =
      handSweep.components.filter (fun q =>
        !(mgrSweep.componentCache.any
          (fun p => expiredAt p.2 150 && q.1 == p.1)))) ∧
    ((ComponentManager.getAllComponentStats
        (mgrSweep.cleanupExpiredComponents handSweep 150).1 150).map
          (fun s => s.customId) =
      (mgrSweep.componentCache.filter (fun p => !expiredAt p.2 150)).map
        Prod.fst) :=
  C8_expiry_sweep mgrSweep handSweep 150 150 (by decide)

end DiscordBot
